import Mathlib

/-!
A shallow embedding of `src/credential_rotation/qwen/manager.py` (the Qwen
account rotation manager) and proofs about its operations.

Modelling conventions:
* Python strings are modelled as `List Char` (`Str`); literals are written
  `"...".data`, which the kernel evaluates.
* The filesystem visible to the manager is a record `FS`: the accounts
  directory (`none` when absent, otherwise an association list of
  filename/contents pairs), the active credential file `oauth_creds.json`
  (contents plus a legacy-symlink flag), the state file `state.yaml`
  (classified by how `yaml.safe_load` + `RotationState.from_dict` treat it),
  the temporary file `state.tmp`, and the append-only audit log.
* Fallible I/O steps (flock, `shutil.copy2` during sync-back, the activate
  copy, `yaml.dump`, `os.replace`, the audit append) are driven by boolean
  fields of an `Oracle` argument: `true` means the step's system calls
  succeed, `false` means they raise `OSError`/`IOError`.
* Python exceptions that can escape the manager are the constructors of
  `PyErr`; operations return `FS × Except PyErr α`.
* `datetime.now().isoformat()` is passed in as a `now : Str` argument.
* Python's `sorted` on a list of ints is modelled by `List.insertionSort`
  (any correct sort of integers computes the same list).
-/

set_option maxHeartbeats 1000000

namespace QwenRotation

/-- Python strings, modelled as lists of characters. -/
abbrev Str := List Char

/-- `SwitchReason` from the source: reason for an account switch. -/
inductive SwitchReason where
  | auto_quota
  | manual
  | test
deriving DecidableEq

/-- Exceptions that can escape the manager's public operations.
`osError` covers Python's `OSError`/`IOError` (they are the same class). -/
inductive PyErr where
  | accountNotFound
  | lockError
  | osError
  | attributeError
deriving DecidableEq

deriving instance DecidableEq for Except

/-- `AccountStats` from the source: statistics for a single account. -/
structure AccountStats where
  switches_count : Int := 0
  last_used : Option Str := none
deriving DecidableEq

/-- `RotationState` from the source: complete rotation state.
`accounts` is a Python dict keyed by strings `account{i}`; insertion
order is preserved, so it is modelled as an association list (the code
never creates duplicate keys). -/
structure RotationState where
  current_index : Int := 1
  total_accounts : Int := 5
  last_switch : Option Str := none
  switches_total : Int := 0
  accounts : List (Str × AccountStats) := []
deriving DecidableEq

/-- A YAML mapping of the shape `AccountStats.to_dict` produces / `from_dict`
consumes: each key optional (absent key ↔ `none`). -/
structure AccountStatsDict where
  switches_count : Option Int := none
  last_used : Option Str := none
deriving DecidableEq

/-- A YAML mapping of the shape `RotationState.to_dict` produces / `from_dict`
consumes.  In `accounts`, a value of `none` models YAML `null` for that
account (handled by `AccountStats.from_dict`). -/
structure StateDict where
  current_index : Option Int := none
  total_accounts : Option Int := none
  last_switch : Option Str := none
  switches_total : Option Int := none
  accounts : Option (List (Str × Option AccountStatsDict)) := none
deriving DecidableEq

/-- `AccountStats.to_dict`. -/
def AccountStats.to_dict (a : AccountStats) : AccountStatsDict :=
  { switches_count := some a.switches_count, last_used := a.last_used }

/-- `AccountStats.from_dict`: `None` data yields the defaults, otherwise
each field is `data.get(key, default)`. -/
def AccountStats.from_dict (data : Option AccountStatsDict) : AccountStats :=
  match data with
  | none => {}
  | some d => { switches_count := d.switches_count.getD 0, last_used := d.last_used }

/-- `RotationState.to_dict`. -/
def RotationState.to_dict (s : RotationState) : StateDict :=
  { current_index := some s.current_index
    total_accounts := some s.total_accounts
    last_switch := s.last_switch
    switches_total := some s.switches_total
    accounts := some (s.accounts.map (fun kv => (kv.1, some kv.2.to_dict))) }

/-- `RotationState.from_dict`: each field is `data.get(key, default)`;
the default for `total_accounts` is the module constant
`DEFAULT_TOTAL_ACCOUNTS = 5`. -/
def RotationState.from_dict (d : StateDict) : RotationState :=
  { current_index := d.current_index.getD 1
    total_accounts := d.total_accounts.getD 5
    last_switch := d.last_switch
    switches_total := d.switches_total.getD 0
    accounts := (d.accounts.getD []).map (fun kv => (kv.1, AccountStats.from_dict kv.2)) }

/-- One line of `rotation.log`, as written by `_log_switch` (the constant
`level`/`event` fields are omitted from the model). -/
structure AuditEntry where
  timestamp : Str
  from_idx : Int
  to_idx : Int
  reason : SwitchReason
deriving DecidableEq

/-- How `state.yaml` behaves under `get_state`'s read path:
absent; unreadable (`open`/read raises `IOError`); not YAML
(`yaml.safe_load` raises `YAMLError`); parses to a falsy value
(`None`, empty document, `0`, empty string/list — replaced by an empty
dict by `yaml.safe_load(f) or ...`); parses to a truthy non-mapping
value (a scalar or nonempty list); or parses to a mapping. -/
inductive StateFileContent where
  | absent
  | unreadable
  | notYaml
  | yamlFalsy
  | yamlNonMap
  | yamlMap (d : StateDict)
deriving DecidableEq

/-- The filesystem state the manager reads and writes. -/
structure FS where
  /-- `~/.qwen/accounts`: `none` when the directory is absent, otherwise
  the (filename, contents) pairs of the files in it. -/
  accountsDir : Option (List (Str × Str)) := none
  /-- Contents of `~/.qwen/oauth_creds.json`, `none` when absent. -/
  creds : Option Str := none
  /-- Whether `oauth_creds.json` is a legacy symlink. -/
  credsSymlink : Bool := false
  /-- `~/.qwen/state.yaml`. -/
  stateFile : StateFileContent := .absent
  /-- Contents of the temporary file `state.tmp`, `none` when absent. -/
  stateTemp : Option StateDict := none
  /-- Lines of `~/.qwen/rotation.log`. -/
  auditLog : List AuditEntry := []
deriving DecidableEq

/-- Outcomes of the fallible system calls an operation performs, one flag
per call site: `true` = the call succeeds, `false` = it raises
`OSError`/`IOError` (for `auditOk`, `IOError`). -/
structure Oracle where
  lockOk : Bool := true
  syncOk : Bool := true
  activateOk : Bool := true
  dumpOk : Bool := true
  replaceOk : Bool := true
  auditOk : Bool := true
deriving DecidableEq

/-- First-match association lookup (Python `dict` access / file lookup by
name in a directory listing). -/
def lookupA {β : Type} : List (Str × β) → Str → Option β
  | [], _ => none
  | (k, v) :: rest, key => if k = key then some v else lookupA rest key

/-- Association update (Python `dict` assignment / overwriting or creating
a file): replace the first binding of `key`, or append a new one. -/
def setA {β : Type} : List (Str × β) → Str → β → List (Str × β)
  | [], key, v => [(key, v)]
  | (k, w) :: rest, key, v =>
      if k = key then (k, v) :: rest else (k, w) :: setA rest key v

/-- Python `str.split(sep)` for a single-character separator. -/
def splitChar (sep : Char) : Str → List Str
  | [] => [[]]
  | c :: rest =>
      let r := splitChar sep rest
      if c = sep then [] :: r
      else
        match r with
        | [] => [[c]]
        | h :: t => (c :: h) :: t

/-- `pathlib.Path(name).stem` — the name with its last suffix removed — for
the names discovery passes it.  Every such name matches
`oauth_creds_*.json`, so it has an inner dot (the suffix guard positions
`0 < i < len(name) - 1` of `pathlib` always hold) and the stem is simply
everything before the last dot. -/
def stemOf (name : Str) : Str :=
  let parts := splitChar '.' name
  if 2 ≤ parts.length then
    (parts.dropLast.intersperse ['.']).flatten
  else name

/-- Python `int(s)` on the strings discovery can pass it (the last
`_`-separated chunk of a stem, so never containing `_`): optional
whitespace around an optional single sign followed by one or more ASCII
digits.  (Unicode digits are not modelled.) -/
def pyInt? (s : Str) : Option Int :=
  let core : Str → Option Int := fun ds =>
    if ds ≠ [] ∧ ds.all Char.isDigit then
      some (Int.ofNat (ds.foldl (fun a c => a * 10 + (c.toNat - 48)) 0))
    else none
  let t := (((s.dropWhile Char.isWhitespace).reverse).dropWhile Char.isWhitespace).reverse
  match t with
  | '-' :: ds => (core ds).map (fun n => -n)
  | '+' :: ds => core ds
  | ds => core ds

/-- Whether a filename matches the glob `oauth_creds_*.json` (`*` may be
empty; matching is case-sensitive, as on Linux). -/
def slotMatches (f : Str) : Bool :=
  "oauth_creds_".data.isPrefixOf f && ".json".data.isSuffixOf f &&
    "oauth_creds_".data.length + ".json".data.length ≤ f.length

/-- The index a single directory entry contributes to discovery, if any:
the body of the loop in `_discover_account_ids` (glob match, stem, split
on `_`, at least 3 parts, `int` of the last part; `int` failure is caught
and the entry skipped). -/
def parseSlotIndex (f : Str) : Option Int :=
  if slotMatches f then
    let parts := splitChar '_' (stemOf f)
    if 3 ≤ parts.length then pyInt? (parts.getLastD []) else none
  else none

/-- `_discover_account_ids`: empty when the directory is absent, otherwise
the indices parsed from the directory's filenames, sorted ascending
(`sorted(ids)`). -/
def discover_account_ids (dir : Option (List (Str × Str))) : List Int :=
  match dir with
  | none => []
  | some files =>
      List.insertionSort (· ≤ ·) ((files.map Prod.fst).filterMap parseSlotIndex)

/-- The slot filename `oauth_creds_{index}.json` (Python `f`-string
formatting of an `int` agrees with `toString : Int → String`). -/
def slotName (index : Int) : Str :=
  "oauth_creds_".data ++ (toString index).data ++ ".json".data

/-- The per-account state key `account{index}`. -/
def accountKey (index : Int) : Str :=
  "account".data ++ (toString index).data

/-- `get_state` (on self with `total_accounts = ta`): read the current
rotation state.  Absent file, unreadable file and YAML parse errors all
yield `RotationState(total_accounts=self.total_accounts)`; a falsy parse
result is replaced by an empty dict (`yaml.safe_load(f) or ...`) and fed
to `from_dict`; a truthy non-mapping parse result reaches
`from_dict`, whose `data.get` raises `AttributeError` (not caught by the
`yaml.YAMLError`/`IOError` handler). -/
def get_state (ta : Int) (fs : FS) : Except PyErr RotationState :=
  match fs.stateFile with
  | .absent => .ok { total_accounts := ta }
  | .unreadable => .ok { total_accounts := ta }
  | .notYaml => .ok { total_accounts := ta }
  | .yamlFalsy => .ok (RotationState.from_dict {})
  | .yamlNonMap => .error .attributeError
  | .yamlMap d => .ok (RotationState.from_dict d)

/-- `_write_state`: dump the serialized state into `state.tmp`
(`dumpOk`; `mkdir` failure is folded into this flag), then `os.replace`
it over `state.yaml` (`replaceOk`).  On either failure the temporary
file is unlinked and the `IOError`/`OSError` re-raised. -/
def write_state (dumpOk replaceOk : Bool) (fs : FS) (s : RotationState) :
    FS × Option PyErr :=
  if dumpOk then
    let fs1 := { fs with stateTemp := some s.to_dict }
    if replaceOk then
      ({ fs1 with stateFile := .yamlMap s.to_dict, stateTemp := none }, none)
    else
      ({ fs1 with stateTemp := none }, some .osError)
  else
    ({ fs with stateTemp := none }, some .osError)

/-- Step 1 of `_swap_credentials`: if a current index was given and the
active credential file exists, either unlink it (legacy symlink cleanup)
or `shutil.copy2` its contents over the current index's slot file.  A
copy failure — including the directory being absent — is caught, logged
and swallowed. -/
def sync_back (syncOk : Bool) (fs : FS) (current : Option Int) : FS :=
  match current, fs.creds with
  | some c, some content =>
      if fs.credsSymlink then
        { fs with creds := none, credsSymlink := false }
      else
        match fs.accountsDir with
        | some files =>
            if syncOk then
              { fs with accountsDir := some (setA files (slotName c) content) }
            else fs
        | none => fs
  | _, _ => fs

/-- `_swap_credentials`: sync-back (step 1), then validate that the target
slot exists (raising `AccountNotFoundError` otherwise), then atomically
activate it — copy the target slot to a temporary file and `os.replace`
it over the active credential file; on an activation failure the
temporary copy is removed and `OSError` raised.  (The activation
temporary is not tracked in `FS`: it is gone on both paths.) -/
def swap_credentials (o : Oracle) (fs : FS) (target : Int)
    (current : Option Int) : FS × Option PyErr :=
  let fs1 := sync_back o.syncOk fs current
  match fs1.accountsDir.bind (fun files => lookupA files (slotName target)) with
  | none => (fs1, some .accountNotFound)
  | some tc =>
      if o.activateOk then
        ({ fs1 with creds := some tc, credsSymlink := false }, none)
      else (fs1, some .osError)

/-- The accounts-dict part of `_update_account_stats`: create the entry if
absent, then increment its counter and stamp `last_used`.  (Python dicts
never hold duplicate keys, so updating the first binding is exact.) -/
def bumpStats (now : Str) : List (Str × AccountStats) → Str →
    List (Str × AccountStats)
  | [], key => [(key, { switches_count := 1, last_used := some now })]
  | (k, v) :: rest, key =>
      if k = key then
        (k, { switches_count := v.switches_count + 1, last_used := some now }) :: rest
      else (k, v) :: bumpStats now rest key

/-- `_update_account_stats`. -/
def update_account_stats (s : RotationState) (index : Int) (now : Str) :
    RotationState :=
  { s with accounts := bumpStats now s.accounts (accountKey index) }

/-- `_log_switch`: append one line to `rotation.log`; an `IOError` is
swallowed. -/
def log_switch (auditOk : Bool) (fs : FS) (from_idx to_idx : Int)
    (reason : SwitchReason) (now : Str) : FS :=
  if auditOk then
    { fs with auditLog := fs.auditLog ++ [⟨now, from_idx, to_idx, reason⟩] }
  else fs

/-- `_with_lock`: open and flock the lock file (`lockOk`; failure raises
`LockError` and the operation is never invoked), run the operation, and —
because `return func()` sits inside the `try` block — convert any
`IOError`/`OSError` the operation raises into `LockError` as well.
Other exceptions (`AccountNotFoundError`, `AttributeError`) propagate
unchanged.  The lock itself is released on every path. -/
def with_lock {α : Type} (lockOk : Bool) (op : FS → FS × Except PyErr α)
    (fs : FS) : FS × Except PyErr α :=
  if lockOk then
    match op fs with
    | (fs1, .error .osError) => (fs1, .error .lockError)
    | r => r
  else (fs, .error .lockError)

/-- `switch_to`: under the lock — read state, swap credentials to `index`
(with the recorded current index), then set `current_index`,
`last_switch`, bump `switches_total` and the target's stats, persist the
state, and append an audit entry. -/
def switch_to (ta : Int) (o : Oracle) (now : Str) (fs : FS) (index : Int)
    (reason : SwitchReason) : FS × Except PyErr Bool :=
  with_lock o.lockOk (fun fs0 =>
    match get_state ta fs0 with
    | .error e => (fs0, .error e)
    | .ok state =>
        let current_index := state.current_index
        match swap_credentials o fs0 index (some current_index) with
        | (fs1, some e) => (fs1, .error e)
        | (fs1, none) =>
            let st2 := update_account_stats
              { state with current_index := index, last_switch := some now,
                           switches_total := state.switches_total + 1 } index now
            match write_state o.dumpOk o.replaceOk fs1 st2 with
            | (fs2, some e) => (fs2, .error e)
            | (fs2, none) =>
                (log_switch o.auditOk fs2 current_index index reason now, .ok true))
    fs

/-- The target-selection block of `switch_next`: `list.index` finds the
first position of `current_index`; on success the target is the
following element modulo the length (`wrapped` iff that position wraps
to 0); on `ValueError` the target is the first element and `wrapped`
is `True`. -/
def select_next (ids : List Int) (cur : Int) : Int × Bool :=
  match ids.findIdx? (· == cur) with
  | some pos =>
      let nextPos := (pos + 1) % ids.length
      (ids.getD nextPos 0, nextPos == 0)
  | none => (ids.getD 0 0, true)

/-- `switch_next`: under the lock — read state, discover the available
ids (raising `AccountNotFoundError` when there are none), select the
next target, swap, update the state (additionally refreshing
`total_accounts` to the discovered count), persist, audit, and return
`(not wrapped, next_index)`. -/
def switch_next (ta : Int) (o : Oracle) (now : Str) (fs : FS)
    (reason : SwitchReason) : FS × Except PyErr (Bool × Int) :=
  with_lock o.lockOk (fun fs0 =>
    match get_state ta fs0 with
    | .error e => (fs0, .error e)
    | .ok state =>
        let current_index := state.current_index
        let available_ids := discover_account_ids fs0.accountsDir
        if available_ids.isEmpty then (fs0, .error .accountNotFound)
        else
          let nw := select_next available_ids current_index
          match swap_credentials o fs0 nw.1 (some current_index) with
          | (fs1, some e) => (fs1, .error e)
          | (fs1, none) =>
              let st3 :=
                { update_account_stats
                    { state with current_index := nw.1, last_switch := some now,
                                 switches_total := state.switches_total + 1 } nw.1 now
                  with total_accounts := (available_ids.length : Int) }
              match write_state o.dumpOk o.replaceOk fs1 st3 with
              | (fs2, some e) => (fs2, .error e)
              | (fs2, none) =>
                  (log_switch o.auditOk fs2 current_index nw.1 reason now,
                   .ok (!nw.2, nw.1)))
    fs

/-- One row of the mapping `list_accounts` returns.  (`exists_flag` models
the `exists` key of the Python dict.) -/
structure AccountEntry where
  index : Int
  active : Bool
  exists_flag : Bool
  switches_count : Int
  last_used : Option Str
deriving DecidableEq

/-- `list_accounts`: read state (without the lock), discover the available
ids, and build one row per discovered id, pulling stats from the state
(defaulting for accounts never used).  An `AttributeError` from
`get_state` propagates. -/
def list_accounts (ta : Int) (fs : FS) :
    Except PyErr (List (Str × AccountEntry)) :=
  match get_state ta fs with
  | .error e => .error e
  | .ok state =>
      .ok ((discover_account_ids fs.accountsDir).foldl
        (fun result i =>
          let stats := (lookupA state.accounts (accountKey i)).getD {}
          setA result (accountKey i)
            { index := i, active := i == state.current_index,
              exists_flag := true,
              switches_count := stats.switches_count,
              last_used := stats.last_used })
        [])

/-- One step of a switch trace: a `switch_to` or `switch_next` call with
its oracle outcomes and timestamp. -/
inductive SwitchCall where
  | to (index : Int) (reason : SwitchReason) (o : Oracle) (now : Str)
  | next (reason : SwitchReason) (o : Oracle) (now : Str)
deriving DecidableEq

/-- Run a sequence of manager calls, requiring each to return
successfully (`None` as soon as one raises). -/
def runSwitches (ta : Int) : List SwitchCall → FS → Option FS
  | [], fs => some fs
  | .to i reason o now :: rest, fs =>
      match switch_to ta o now fs i reason with
      | (fs1, .ok _) => runSwitches ta rest fs1
      | (_, .error _) => none
  | .next reason o now :: rest, fs =>
      match switch_next ta o now fs reason with
      | (fs1, .ok _) => runSwitches ta rest fs1
      | (_, .error _) => none

/-- Sum of the per-account switch counters of a state's accounts dict. -/
def sumCounts (l : List (Str × AccountStats)) : Int :=
  (l.map (fun kv => kv.2.switches_count)).sum

/-- The switch counter recorded for `key` (0 when the entry is absent). -/
def statsCount (l : List (Str × AccountStats)) (key : Str) : Int :=
  ((lookupA l key).getD {}).switches_count

/-! ## Helper lemmas -/

theorem lookupA_setA_self {β : Type} (l : List (Str × β)) (k : Str) (v : β) :
    lookupA (setA l k v) k = some v := by
  induction l with
  | nil => simp [setA, lookupA]
  | cons hd tl ih =>
      by_cases h : hd.1 = k
      · cases hd; simp_all [setA, lookupA]
      · cases hd; simp_all [setA, lookupA]

theorem lookupA_setA_ne {β : Type} (l : List (Str × β)) (k k2 : Str) (v : β)
    (h : k2 ≠ k) : lookupA (setA l k v) k2 = lookupA l k2 := by
  induction l with
  | nil => simp [setA, lookupA, Ne.symm h]
  | cons hd tl ih =>
      cases hd with
      | mk k1 w =>
          by_cases h1 : k1 = k
          · subst h1
            simp [setA, lookupA, Ne.symm h]
          · simp [setA, lookupA, h1, ih]

theorem lookupA_setA_ne_none {β : Type} (l : List (Str × β)) (k k2 : Str)
    (v : β) (h : lookupA l k2 ≠ none) :
    lookupA (setA l k v) k2 ≠ none := by
  by_cases hk : k2 = k
  · subst hk; simp [lookupA_setA_self]
  · rw [lookupA_setA_ne l k k2 v hk]; exact h

/-- `sync_back` touches only the accounts directory and the active
credential file: state file, temp file and audit log are untouched. -/
theorem sync_back_frame (ok : Bool) (fs : FS) (current : Option Int) :
    (sync_back ok fs current).stateFile = fs.stateFile ∧
    (sync_back ok fs current).stateTemp = fs.stateTemp ∧
    (sync_back ok fs current).auditLog = fs.auditLog := by
  unfold sync_back
  rcases current with _ | c <;> rcases hc : fs.creds with _ | content <;> simp
  rcases fs.credsSymlink <;> simp
  rcases fs.accountsDir with _ | files <;> simp
  rcases ok <;> simp

/-- A slot present before `sync_back` is still present afterwards
(sync-back only creates or overwrites files, never removes them). -/
theorem sync_back_preserves_slot (ok : Bool) (fs : FS) (current : Option Int)
    (name : Str)
    (h : fs.accountsDir.bind (fun files => lookupA files name) ≠ none) :
    (sync_back ok fs current).accountsDir.bind
      (fun files => lookupA files name) ≠ none := by
  unfold sync_back
  rcases current with _ | c <;> rcases hc : fs.creds with _ | content <;> simp_all
  rcases fs.credsSymlink <;> simp_all
  rcases hd : fs.accountsDir with _ | files <;> simp_all
  rcases ok <;> simp_all
  exact lookupA_setA_ne_none files (slotName c) name content h

theorem stats_from_to (a : AccountStats) :
    AccountStats.from_dict (some a.to_dict) = a := by
  cases a; simp [AccountStats.from_dict, AccountStats.to_dict]

theorem accounts_from_to (l : List (Str × AccountStats)) :
    (l.map (fun kv => (kv.1, some kv.2.to_dict))).map
      (fun kv => (kv.1, AccountStats.from_dict kv.2)) = l := by
  induction l with
  | nil => rfl
  | cons hd tl ih => simp_all [stats_from_to]

theorem state_from_to (s : RotationState) :
    RotationState.from_dict s.to_dict = s := by
  cases s with
  | mk ci ta ls st accts =>
      simp only [RotationState.from_dict, RotationState.to_dict, Option.getD_some]
      rw [accounts_from_to]

theorem statsCount_bumpStats (now : Str) (l : List (Str × AccountStats))
    (key : Str) :
    lookupA (bumpStats now l key) key =
      some { switches_count := statsCount l key + 1, last_used := some now } := by
  induction l with
  | nil => simp [bumpStats, lookupA, statsCount]
  | cons hd tl ih =>
      cases hd with
      | mk k v =>
          by_cases h : k = key
          · subst h; simp [bumpStats, lookupA, statsCount]
          · simp [bumpStats, lookupA, h, statsCount] at ih ⊢
            exact ih

theorem sumCounts_bumpStats (now : Str) (l : List (Str × AccountStats))
    (key : Str) :
    sumCounts (bumpStats now l key) = sumCounts l + 1 := by
  induction l with
  | nil => simp [bumpStats, sumCounts]
  | cons hd tl ih =>
      cases hd with
      | mk k v =>
          by_cases h : k = key
          · subst h; simp [bumpStats, sumCounts]; ring
          · simp [bumpStats, sumCounts, h] at ih ⊢
            omega

theorem log_switch_stateFile (auditOk : Bool) (fs : FS) (f t : Int)
    (reason : SwitchReason) (now : Str) :
    (log_switch auditOk fs f t reason now).stateFile = fs.stateFile := by
  unfold log_switch; split <;> rfl

theorem swap_credentials_notFound (o : Oracle) (fs : FS) (target : Int)
    (current : Option Int)
    (h : (sync_back o.syncOk fs current).accountsDir.bind
          (fun files => lookupA files (slotName target)) = none) :
    swap_credentials o fs target current =
      (sync_back o.syncOk fs current, some .accountNotFound) := by
  simp [swap_credentials, h]

theorem swap_credentials_success (o : Oracle) (fs : FS) (target : Int)
    (current : Option Int) (tc : Str)
    (hact : o.activateOk = true)
    (h : (sync_back o.syncOk fs current).accountsDir.bind
          (fun files => lookupA files (slotName target)) = some tc) :
    swap_credentials o fs target current =
      ({ sync_back o.syncOk fs current with
          creds := some tc, credsSymlink := false }, none) := by
  simp [swap_credentials, h, hact]

theorem write_state_none_inv (d r : Bool) (fs : FS) (s : RotationState)
    (fs2 : FS) (h : write_state d r fs s = (fs2, none)) :
    d = true ∧ r = true ∧
      fs2 = { fs with stateFile := .yamlMap s.to_dict, stateTemp := none } := by
  cases d <;> cases r <;> simp_all [write_state]

theorem with_lock_ok_inv {α : Type} (lockOk : Bool)
    (op : FS → FS × Except PyErr α) (fs fs1 : FS) (b : α)
    (h : with_lock lockOk op fs = (fs1, .ok b)) :
    lockOk = true ∧ op fs = (fs1, .ok b) := by
  cases lockOk with
  | false => simp [with_lock] at h
  | true =>
      refine ⟨rfl, ?_⟩
      rcases hop : op fs with ⟨fs0, res⟩
      rw [with_lock, if_pos rfl, hop] at h
      cases res with
      | ok v =>
          exact h
      | error e => cases e <;> simp_all

theorem with_lock_run {α : Type} (op : FS → FS × Except PyErr α) (fs fs1 : FS)
    (r : Except PyErr α)
    (hok : r ≠ .error .osError) (h : op fs = (fs1, r)) :
    with_lock true op fs = (fs1, r) := by
  rw [with_lock, if_pos rfl, h]
  cases r with
  | ok v => rfl
  | error e => cases e <;> simp_all

/-- Forward characterization of a successful `switch_to`: when the lock is
acquired, the state is readable, the target slot exists after sync-back
and all writes succeed, `switch_to` performs exactly sync-back,
activation, the state update and the audit append. -/
theorem switch_to_success_eq (ta : Int) (o : Oracle) (now : Str) (fs : FS)
    (i : Int) (reason : SwitchReason) (s : RotationState) (tc : Str)
    (hl : o.lockOk = true) (ha : o.activateOk = true) (hd : o.dumpOk = true)
    (hr : o.replaceOk = true)
    (hs : get_state ta fs = .ok s)
    (hslot : (sync_back o.syncOk fs (some s.current_index)).accountsDir.bind
        (fun files => lookupA files (slotName i)) = some tc) :
    switch_to ta o now fs i reason =
      (log_switch o.auditOk
        { sync_back o.syncOk fs (some s.current_index) with
            creds := some tc, credsSymlink := false,
            stateFile := .yamlMap (update_account_stats
              { s with current_index := i, last_switch := some now,
                       switches_total := s.switches_total + 1 } i now).to_dict,
            stateTemp := none }
        s.current_index i reason now, .ok true) := by
  rw [switch_to, hl]
  apply with_lock_run _ _ _ _ (by simp)
  rw [hs]
  simp only
  rw [swap_credentials_success o fs i (some s.current_index) tc ha hslot]
  simp only
  rw [write_state, if_pos hd, if_pos hr]

/-- Inverse characterization of a successful `switch_to`. -/
theorem switch_to_ok_inv (ta : Int) (o : Oracle) (now : Str) (fs : FS)
    (i : Int) (reason : SwitchReason) (fs1 : FS) (b : Bool)
    (h : switch_to ta o now fs i reason = (fs1, .ok b)) :
    ∃ s fsa, get_state ta fs = .ok s ∧
      swap_credentials o fs i (some s.current_index) = (fsa, none) ∧
      fs1 = log_switch o.auditOk
        { fsa with
            stateFile := .yamlMap (update_account_stats
              { s with current_index := i, last_switch := some now,
                       switches_total := s.switches_total + 1 } i now).to_dict,
            stateTemp := none }
        s.current_index i reason now := by
  obtain ⟨hl, hop⟩ := with_lock_ok_inv _ _ _ _ _ h
  rcases hg : get_state ta fs with e | s
  · rw [hg] at hop; simp at hop
  · rw [hg] at hop
    simp only at hop
    rcases hsw : swap_credentials o fs i (some s.current_index) with ⟨fsa, res⟩
    rw [hsw] at hop
    cases res with
    | some e => simp at hop
    | none =>
        simp only at hop
        rcases hw : write_state o.dumpOk o.replaceOk fsa
            (update_account_stats
              { s with current_index := i, last_switch := some now,
                       switches_total := s.switches_total + 1 } i now) with ⟨fs2, res2⟩
        rw [hw] at hop
        cases res2 with
        | some e => simp at hop
        | none =>
            simp only at hop
            obtain ⟨-, -, hfs2⟩ := write_state_none_inv _ _ _ _ _ hw
            subst hfs2
            simp only [Prod.mk.injEq] at hop
            exact ⟨s, fsa, rfl, hsw, hop.1.symm⟩

theorem get_state_yamlMap (ta : Int) (fs : FS) (d : StateDict)
    (h : fs.stateFile = .yamlMap d) :
    get_state ta fs = .ok (RotationState.from_dict d) := by
  rw [get_state, h]

theorem isEmpty_false_of_ne_nil {α : Type} (l : List α) (h : l ≠ []) :
    l.isEmpty = false := by
  cases hl : l.isEmpty
  · rfl
  · exact absurd (List.isEmpty_iff.mp hl) h

theorem mem_setA {β : Type} (l : List (Str × β)) (k : Str) (v : β)
    (kv : Str × β) (h : kv ∈ setA l k v) : kv ∈ l ∨ kv = (k, v) := by
  induction l with
  | nil => simpa [setA] using h
  | cons hd tl ih =>
      cases hd with
      | mk k1 w =>
          by_cases h1 : k1 = k
          · subst h1
            simp only [setA, eq_self_iff_true, if_true, List.mem_cons] at h
            rcases h with h | h
            · exact Or.inr h
            · exact Or.inl (List.mem_cons_of_mem _ h)
          · simp only [setA, if_neg h1, List.mem_cons] at h
            rcases h with h | h
            · exact Or.inl (by simp [h])
            · rcases ih h with h2 | h2
              · exact Or.inl (List.mem_cons_of_mem _ h2)
              · exact Or.inr h2

theorem findIdx?_lt_length {α : Type} (p : α → Bool) (l : List α) (n : Nat)
    (h : l.findIdx? p = some n) : n < l.length := by
  have h1 : l.findIdx p = n := by rw [List.findIdx_eq_findIdx?, h]
  have h2 : ∃ x ∈ l, p x := by
    by_contra hc
    push_neg at hc
    have hn : l.findIdx? p = none := List.findIdx?_eq_none_iff.mpr (by
      intro x hx
      simpa using hc x hx)
    simp [hn] at h
  have := List.findIdx_lt_length.mpr h2
  omega

theorem getD_mem (l : List Int) (n : Nat) (h : n < l.length) :
    l.getD n 0 ∈ l := by
  rw [List.getD_eq_getElem l 0 h]
  exact List.getElem_mem h

theorem select_next_none (ids : List Int) (cur : Int)
    (h : ids.findIdx? (· == cur) = none) :
    select_next ids cur = (ids.getD 0 0, true) := by
  simp [select_next, h]

theorem select_next_last (ids : List Int) (cur : Int) (p : Nat)
    (h : ids.findIdx? (· == cur) = some p) (hp : p + 1 = ids.length) :
    select_next ids cur = (ids.getD 0 0, true) := by
  have hlen : ids.length ≠ 0 := by omega
  simp [select_next, h, hp, Nat.mod_self]

theorem select_next_mid (ids : List Int) (cur : Int) (p : Nat)
    (h : ids.findIdx? (· == cur) = some p) (hp : p + 1 < ids.length) :
    select_next ids cur = (ids.getD (p + 1) 0, false) := by
  simp [select_next, h, Nat.mod_eq_of_lt hp]

/-- The target `select_next` picks is one of the discovered ids. -/
theorem select_next_mem (ids : List Int) (cur : Int) (hne : ids ≠ []) :
    (select_next ids cur).1 ∈ ids := by
  have hlen : 0 < ids.length := List.length_pos.mpr hne
  unfold select_next
  rcases hf : ids.findIdx? (· == cur) with _ | p
  · exact getD_mem ids 0 hlen
  · have hp := findIdx?_lt_length _ _ _ hf
    exact getD_mem ids ((p + 1) % ids.length) (Nat.mod_lt _ hlen)

/-- Forward characterization of a successful `switch_next`. -/
theorem switch_next_success_eq (ta : Int) (o : Oracle) (now : Str) (fs : FS)
    (reason : SwitchReason) (s : RotationState) (tc : Str)
    (hl : o.lockOk = true) (ha : o.activateOk = true) (hd : o.dumpOk = true)
    (hr : o.replaceOk = true)
    (hs : get_state ta fs = .ok s)
    (hne : (discover_account_ids fs.accountsDir).isEmpty = false)
    (hslot : (sync_back o.syncOk fs (some s.current_index)).accountsDir.bind
        (fun files => lookupA files (slotName
          (select_next (discover_account_ids fs.accountsDir) s.current_index).1))
      = some tc) :
    switch_next ta o now fs reason =
      (log_switch o.auditOk
        { sync_back o.syncOk fs (some s.current_index) with
            creds := some tc, credsSymlink := false,
            stateFile := .yamlMap ({ update_account_stats
              { s with
                  current_index :=
                    (select_next (discover_account_ids fs.accountsDir)
                      s.current_index).1,
                  last_switch := some now,
                  switches_total := s.switches_total + 1 }
              (select_next (discover_account_ids fs.accountsDir)
                s.current_index).1 now
              with total_accounts :=
                ((discover_account_ids fs.accountsDir).length : Int) }).to_dict,
            stateTemp := none }
        s.current_index
        (select_next (discover_account_ids fs.accountsDir) s.current_index).1
        reason now,
       .ok (!(select_next (discover_account_ids fs.accountsDir)
                s.current_index).2,
            (select_next (discover_account_ids fs.accountsDir)
              s.current_index).1)) := by
  rw [switch_next, hl]
  apply with_lock_run _ _ _ _ (by simp)
  rw [hs]
  simp only [hne, Bool.false_eq_true, if_false]
  rw [swap_credentials_success o fs _ (some s.current_index) tc ha hslot]
  simp only
  rw [write_state, if_pos hd, if_pos hr]

/-- `switch_next` on an empty discovery fails before touching anything. -/
theorem switch_next_empty_eq (ta : Int) (o : Oracle) (now : Str) (fs : FS)
    (reason : SwitchReason) (s : RotationState)
    (hl : o.lockOk = true)
    (hs : get_state ta fs = .ok s)
    (hne : discover_account_ids fs.accountsDir = []) :
    switch_next ta o now fs reason = (fs, .error .accountNotFound) := by
  rw [switch_next, hl]
  apply with_lock_run _ _ _ _ (by simp)
  rw [hs]
  simp only [hne, List.isEmpty_nil, if_true]

/-- Inverse characterization of a successful `switch_next`. -/
theorem switch_next_ok_inv (ta : Int) (o : Oracle) (now : Str) (fs : FS)
    (reason : SwitchReason) (fs1 : FS) (b : Bool) (j : Int)
    (h : switch_next ta o now fs reason = (fs1, .ok (b, j))) :
    ∃ s fsa, get_state ta fs = .ok s ∧
      j = (select_next (discover_account_ids fs.accountsDir) s.current_index).1 ∧
      swap_credentials o fs j (some s.current_index) = (fsa, none) ∧
      fs1 = log_switch o.auditOk
        { fsa with
            stateFile := .yamlMap ({ update_account_stats
              { s with current_index := j, last_switch := some now,
                       switches_total := s.switches_total + 1 } j now
              with total_accounts :=
                ((discover_account_ids fs.accountsDir).length : Int) }).to_dict,
            stateTemp := none }
        s.current_index j reason now := by
  obtain ⟨hl, hop⟩ := with_lock_ok_inv _ _ _ _ _ h
  rcases hg : get_state ta fs with e | s
  · rw [hg] at hop; simp at hop
  · rw [hg] at hop
    simp only at hop
    rcases hemp : (discover_account_ids fs.accountsDir).isEmpty with _ | _
    · rw [hemp] at hop
      simp only [Bool.false_eq_true, if_false] at hop
      rcases hsw : swap_credentials o fs
          (select_next (discover_account_ids fs.accountsDir) s.current_index).1
          (some s.current_index) with ⟨fsa, res⟩
      rw [hsw] at hop
      cases res with
      | some e => simp at hop
      | none =>
          simp only at hop
          rcases hw : write_state o.dumpOk o.replaceOk fsa
              ({ update_account_stats
                { s with
                    current_index :=
                      (select_next (discover_account_ids fs.accountsDir)
                        s.current_index).1,
                    last_switch := some now,
                    switches_total := s.switches_total + 1 }
                (select_next (discover_account_ids fs.accountsDir)
                  s.current_index).1 now
                with total_accounts :=
                  ((discover_account_ids fs.accountsDir).length : Int) })
              with ⟨fs2, res2⟩
          rw [hw] at hop
          cases res2 with
          | some e => simp at hop
          | none =>
              simp only [Prod.mk.injEq] at hop
              obtain ⟨-, -, hfs2⟩ := write_state_none_inv _ _ _ _ _ hw
              subst hfs2
              obtain ⟨hfs1, hok⟩ := hop
              have hj : j = (select_next (discover_account_ids fs.accountsDir)
                  s.current_index).1 := by
                have h2 := Except.ok.inj hok
                have := congrArg Prod.snd h2
                simpa using this.symm
              subst hj
              exact ⟨s, fsa, rfl, rfl, hsw, hfs1.symm⟩
    · rw [hemp] at hop
      simp at hop

/-! ## Claim theorems -/

/-- C1 (counterexample): the claim "switch_to(x) where slot x does not
exist always fails with AccountNotFound and leaves Rotation State
unchanged" fails when `x` equals the recorded `current_index` and an
active credential file exists: the sync-back step itself creates slot
`x` before validation, so the call succeeds and updates the state.
Concretely: empty accounts directory, default state (`current_index = 1`),
active file present, `switch_to(1)` returns success and writes state. -/
theorem switch_to_self_target_creates_slot :
    lookupA ([] : List (Str × Str)) (slotName 1) = none ∧
    (switch_to 5 {} "T0".data
      { accountsDir := some [], creds := some "tok".data } 1 .manual).2
      = .ok true ∧
    (switch_to 5 {} "T0".data
      { accountsDir := some [], creds := some "tok".data } 1 .manual).1.stateFile
      ≠ ({ accountsDir := some [], creds := some "tok".data } : FS).stateFile := by
  refine ⟨by decide, by decide, by decide⟩

/-- C1 (amended): for every target index `x` whose slot file does not
exist even after the sync-back step (in particular whenever `x` is not
the recorded current index, or no active credential file exists),
`switch_to(x, reason)` fails with AccountNotFound and leaves the
Rotation State byte-identical: the state file is untouched, no temporary
state write happens, and no audit entry is appended.  (Hypotheses: the
lock is acquired and the state file is readable.) -/
theorem switch_to_missing_slot_unchanged :
    ∀ (ta : Int) (o : Oracle) (now : Str) (fs : FS) (x : Int)
      (reason : SwitchReason) (s : RotationState),
      o.lockOk = true →
      get_state ta fs = .ok s →
      (sync_back o.syncOk fs (some s.current_index)).accountsDir.bind
        (fun files => lookupA files (slotName x)) = none →
      switch_to ta o now fs x reason =
        (sync_back o.syncOk fs (some s.current_index), .error .accountNotFound) ∧
      (sync_back o.syncOk fs (some s.current_index)).stateFile = fs.stateFile ∧
      (sync_back o.syncOk fs (some s.current_index)).stateTemp = fs.stateTemp ∧
      (sync_back o.syncOk fs (some s.current_index)).auditLog = fs.auditLog := by
  intro ta o now fs x reason s hl hs habs
  refine ⟨?_, (sync_back_frame _ _ _).1, (sync_back_frame _ _ _).2.1,
    (sync_back_frame _ _ _).2.2⟩
  rw [switch_to, hl]
  apply with_lock_run _ _ _ _ (by simp)
  rw [hs]
  simp only
  rw [swap_credentials_notFound o fs x (some s.current_index) habs]

/-- C1 (witness): instantiation of `switch_to_missing_slot_unchanged` at a
concrete filesystem — empty accounts directory, no active file, default
state, target 3. -/
theorem switch_to_missing_slot_unchanged_inst :
    (({} : Oracle).lockOk = true) ∧
    get_state 5 { accountsDir := some [] } = .ok { total_accounts := 5 } ∧
    (sync_back true { accountsDir := some [] } (some 1)).accountsDir.bind
      (fun files => lookupA files (slotName 3)) = none ∧
    switch_to 5 {} "T0".data { accountsDir := some [] } 3 .manual =
      ({ accountsDir := some [] }, .error .accountNotFound) := by
  refine ⟨by decide, by decide, by decide, ?_⟩
  have h := switch_to_missing_slot_unchanged 5 {} "T0".data
    { accountsDir := some [] } 3 .manual { total_accounts := 5 }
    (by decide) (by decide) (by decide)
  exact h.1.trans (by decide)

/-- C3 (code evaluated at the failing input): with the lock acquired and
slot 2 present, a state-file write failure makes `switch_to` raise
`LockError` — the `except (IOError, OSError)` handler of `_with_lock`
wraps the persistence failure, because `return func()` sits inside its
`try` block.  The same call with the write succeeding returns success,
and a genuine lock-acquisition failure produces the very same
`LockError` with the operation never invoked. -/
theorem write_failure_reported_as_lock_error :
    (switch_to 5 { dumpOk := false } "T0".data
      { accountsDir := some [("oauth_creds_2.json".data, "b".data)] }
      2 .manual).2 = .error .lockError ∧
    (switch_to 5 {} "T0".data
      { accountsDir := some [("oauth_creds_2.json".data, "b".data)] }
      2 .manual).2 = .ok true ∧
    switch_to 5 { lockOk := false } "T0".data
      { accountsDir := some [("oauth_creds_2.json".data, "b".data)] } 2 .manual
      = ({ accountsDir := some [("oauth_creds_2.json".data, "b".data)] },
         .error .lockError) := by
  refine ⟨by decide, by decide, by decide⟩

/-- C4 (code evaluated at the failing input): a state file that parses to
a truthy non-mapping YAML value (e.g. the document `hello`) makes
`get_state` raise `AttributeError` (`data.get` on a non-dict), instead
of degrading to defaults; an absent or YAML-invalid file does degrade to
the default state. -/
theorem get_state_nonmapping_yaml_raises :
    get_state 5 { stateFile := .yamlNonMap } = .error .attributeError ∧
    get_state 5 { stateFile := .absent } =
      .ok { current_index := 1, total_accounts := 5, last_switch := none,
            switches_total := 0, accounts := [] } ∧
    get_state 7 { stateFile := .notYaml } = .ok { total_accounts := 7 } := by
  refine ⟨rfl, rfl, rfl⟩

/-- C5 (counterexample): discovery does not deduplicate — the two distinct
filenames `oauth_creds_1.json` and `oauth_creds_01.json` both parse to
index 1, which then appears twice in the discovered sequence. -/
theorem discover_duplicate_indices :
    discover_account_ids
      (some [("oauth_creds_1.json".data, ([] : Str)),
             ("oauth_creds_01.json".data, ([] : Str))]) = [1, 1] ∧
    ¬ (discover_account_ids
      (some [("oauth_creds_1.json".data, ([] : Str)),
             ("oauth_creds_01.json".data, ([] : Str))])).Nodup := by
  refine ⟨by decide, by decide⟩

/-- C5 (amended): for every state of the slot directory, discovery returns
exactly the indices parsed from filenames matching the naming convention,
sorted ascending — filenames not yielding a valid index are silently
skipped, and an absent directory yields the empty sequence — but the
result is NOT deduplicated: distinct filenames parsing to the same index
contribute one occurrence each. -/
theorem discover_sorted_skip_malformed :
    (∀ dir, List.Sorted (· ≤ ·) (discover_account_ids dir)) ∧
    (∀ (files : List (Str × Str)) (i : Int),
      i ∈ discover_account_ids (some files) ↔
        ∃ f, f ∈ files.map Prod.fst ∧ parseSlotIndex f = some i) ∧
    discover_account_ids none = [] := by
  refine ⟨?_, ?_, rfl⟩
  · intro dir
    cases dir with
    | none => simp [discover_account_ids]
    | some files => exact List.sorted_insertionSort _ _
  · intro files i
    rw [discover_account_ids]
    rw [List.Perm.mem_iff (List.perm_insertionSort _ _)]
    simp [List.mem_filterMap]

/-- C7: `_write_state` replaces the state file with the full serialization
of the given state and leaves no temporary file behind when both the
dump and the atomic rename succeed; on a failure of either step the
state file is unchanged, the temporary file is removed, and the
`OSError` is propagated — the real state file is never replaced by a
partial serialization. -/
theorem write_state_atomic_spec :
    ∀ (fs : FS) (s : RotationState),
      write_state true true fs s =
        ({ fs with stateFile := .yamlMap s.to_dict, stateTemp := none }, none) ∧
      (∀ b, write_state false b fs s =
        ({ fs with stateTemp := none }, some .osError)) ∧
      write_state true false fs s =
        ({ fs with stateTemp := none }, some .osError) := by
  intro fs s
  exact ⟨rfl, fun b => rfl, rfl⟩

/-- C8: when `switch_to` targets an index whose slot file does not exist
(and remains absent after sync-back) while an active credential file
exists and is not a symlink, the call fails with AccountNotFound and
leaves the state file and audit log untouched, but the sync-back —
performed before target validation — has already overwritten the current
account's slot file with the active file's contents. -/
theorem failed_switch_syncback_overwrites :
    ∀ (ta : Int) (o : Oracle) (now : Str) (fs : FS) (x : Int)
      (reason : SwitchReason) (s : RotationState) (files : List (Str × Str))
      (c : Str),
      o.lockOk = true → o.syncOk = true →
      get_state ta fs = .ok s →
      fs.accountsDir = some files →
      fs.creds = some c →
      fs.credsSymlink = false →
      lookupA files (slotName x) = none →
      lookupA (setA files (slotName s.current_index) c) (slotName x) = none →
      switch_to ta o now fs x reason =
        ({ fs with accountsDir := some (setA files (slotName s.current_index) c) },
         .error .accountNotFound) ∧
      lookupA (setA files (slotName s.current_index) c)
        (slotName s.current_index) = some c := by
  intro ta o now fs x reason s files c hl hsync hs hdir hcreds hlink hpre habs
  have hsb : sync_back o.syncOk fs (some s.current_index) =
      { fs with accountsDir := some (setA files (slotName s.current_index) c) } := by
    simp [sync_back, hcreds, hlink, hdir, hsync]
  refine ⟨?_, lookupA_setA_self files _ c⟩
  rw [switch_to, hl]
  apply with_lock_run _ _ _ _ (by simp)
  rw [hs]
  simp only
  rw [swap_credentials_notFound o fs x (some s.current_index)
    (by rw [hsb]; simpa using habs), hsb]

/-- C2: `switch_next` behaviour over the discovered ascending sequence:
on an empty sequence it fails with AccountNotFound and changes nothing;
otherwise (given every discovered index's canonical slot file exists and
the writes succeed) it returns `(did-not-wrap, new_index)` where — when
`current_index` sits at position `p` — the new index is the following
element, or the first element with the wrap flag reported when `p` was
last; and when `current_index` is absent from the sequence the new index
is the first element, reported as a wrap. -/
theorem switch_next_rotation_order :
    ∀ (ta : Int) (o : Oracle) (now : Str) (fs : FS) (reason : SwitchReason)
      (s : RotationState),
      o.lockOk = true → o.activateOk = true → o.dumpOk = true →
      o.replaceOk = true →
      get_state ta fs = .ok s →
      (discover_account_ids fs.accountsDir = [] →
        switch_next ta o now fs reason = (fs, .error .accountNotFound)) ∧
      (∀ ids, ids = discover_account_ids fs.accountsDir → ids ≠ [] →
        (∀ i ∈ ids, fs.accountsDir.bind
          (fun files => lookupA files (slotName i)) ≠ none) →
        ((ids.findIdx? (· == s.current_index) = none →
            (switch_next ta o now fs reason).2 = .ok (false, ids.getD 0 0)) ∧
         (∀ p, ids.findIdx? (· == s.current_index) = some p →
            (p + 1 = ids.length →
              (switch_next ta o now fs reason).2 = .ok (false, ids.getD 0 0)) ∧
            (p + 1 < ids.length →
              (switch_next ta o now fs reason).2 =
                .ok (true, ids.getD (p + 1) 0))))) := by
  intro ta o now fs reason s hl ha hd hr hs
  constructor
  · intro hemp
    exact switch_next_empty_eq ta o now fs reason s hl hs hemp
  · intro ids hids hne hslots
    have hne' : (discover_account_ids fs.accountsDir).isEmpty = false := by
      rw [← hids]; exact isEmpty_false_of_ne_nil ids hne
    have htgt : (select_next (discover_account_ids fs.accountsDir)
        s.current_index).1 ∈ ids := by
      rw [← hids] at *
      exact select_next_mem ids s.current_index hne
    obtain ⟨w, hw⟩ := Option.ne_none_iff_exists'.mp (hslots _ htgt)
    have hpost := sync_back_preserves_slot o.syncOk fs (some s.current_index)
      (slotName (select_next (discover_account_ids fs.accountsDir)
        s.current_index).1) (by rw [hw]; simp)
    obtain ⟨tc, htc⟩ := Option.ne_none_iff_exists'.mp hpost
    have key : (switch_next ta o now fs reason).2 =
        .ok (!(select_next (discover_account_ids fs.accountsDir)
                s.current_index).2,
             (select_next (discover_account_ids fs.accountsDir)
               s.current_index).1) := by
      rw [switch_next_success_eq ta o now fs reason s tc hl ha hd hr hs hne' htc]
    subst hids
    refine ⟨?_, ?_⟩
    · intro hfind
      rw [key, select_next_none _ _ hfind]
      rfl
    · intro p hfind
      refine ⟨?_, ?_⟩
      · intro hp
        rw [key, select_next_last _ _ p hfind hp]
        rfl
      · intro hp
        rw [key, select_next_mid _ _ p hfind hp]
        rfl

/-- C2 (witness): the spec scenario — slots `{1,2,5}` and `current_index
= 5`.  The first `switch_next` activates 1 reporting a wrap (success
flag `false`), via `switch_next_rotation_order`; the second activates 2
reporting no wrap. -/
theorem switch_next_rotation_order_inst :
    (switch_next 5 {} "T1".data
      { accountsDir := some
          [("oauth_creds_1.json".data, "a".data),
           ("oauth_creds_2.json".data, "b".data),
           ("oauth_creds_5.json".data, "e".data)],
        stateFile := .yamlMap { current_index := some 5 } }
      .auto_quota).2 = .ok (false, 1) ∧
    (switch_next 5 {} "T2".data
      (switch_next 5 {} "T1".data
        { accountsDir := some
            [("oauth_creds_1.json".data, "a".data),
             ("oauth_creds_2.json".data, "b".data),
             ("oauth_creds_5.json".data, "e".data)],
          stateFile := .yamlMap { current_index := some 5 } }
        .auto_quota).1 .auto_quota).2 = .ok (true, 2) := by
  constructor
  · have h := (switch_next_rotation_order 5 {} "T1".data
      { accountsDir := some
          [("oauth_creds_1.json".data, "a".data),
           ("oauth_creds_2.json".data, "b".data),
           ("oauth_creds_5.json".data, "e".data)],
        stateFile := .yamlMap { current_index := some 5 } }
      .auto_quota { current_index := 5 }
      (by decide) (by decide) (by decide) (by decide) (by decide)).2
      [1, 2, 5] (by decide) (by decide) (by decide)
    have h2 := (h.2 2 (by decide)).1 (by decide)
    exact h2.trans (by decide)
  · decide

/-- C8 (witness): instantiation of `failed_switch_syncback_overwrites`:
slot 1 holds `old`, the active file holds `new`, the state is fresh
(current index 1); `switch_to(2)` fails with AccountNotFound, yet slot 1
now holds `new`. -/
theorem failed_switch_syncback_overwrites_inst :
    get_state 5 { accountsDir := some [("oauth_creds_1.json".data, "old".data)],
                  creds := some "new".data } = .ok { total_accounts := 5 } ∧
    lookupA [("oauth_creds_1.json".data, "old".data)] (slotName 2) = none ∧
    switch_to 5 {} "T0".data
      { accountsDir := some [("oauth_creds_1.json".data, "old".data)],
        creds := some "new".data } 2 .manual =
      ({ accountsDir := some [("oauth_creds_1.json".data, "new".data)],
         creds := some "new".data }, .error .accountNotFound) := by
  refine ⟨by decide, by decide, ?_⟩
  have h := failed_switch_syncback_overwrites 5 {} "T0".data
    { accountsDir := some [("oauth_creds_1.json".data, "old".data)],
      creds := some "new".data } 2 .manual { total_accounts := 5 }
    [("oauth_creds_1.json".data, "old".data)] "new".data
    (by decide) (by decide) (by decide) (by decide) (by decide) (by decide)
    (by decide) (by decide)
  exact h.1.trans (by decide)

theorem get_state_absent (ta : Int) (fs : FS) (h : fs.stateFile = .absent) :
    get_state ta fs = .ok { total_accounts := ta } := by
  rw [get_state, h]

/-- A successful `switch_to` persists a state with both counters bumped. -/
theorem switch_to_ok_state (ta : Int) (o : Oracle) (now : Str) (fs : FS)
    (i : Int) (reason : SwitchReason) (fs1 : FS) (b : Bool) (s : RotationState)
    (hs : get_state ta fs = .ok s)
    (h : switch_to ta o now fs i reason = (fs1, .ok b)) :
    ∃ s1, get_state ta fs1 = .ok s1 ∧
      s1.switches_total = s.switches_total + 1 ∧
      statsCount s1.accounts (accountKey i) =
        statsCount s.accounts (accountKey i) + 1 ∧
      sumCounts s1.accounts = sumCounts s.accounts + 1 := by
  obtain ⟨s', fsa, hg, hsw, hfs1⟩ := switch_to_ok_inv _ _ _ _ _ _ _ _ h
  rw [hs] at hg
  have hss : s = s' := Except.ok.inj hg
  rw [← hss] at hsw hfs1
  subst hfs1
  refine ⟨update_account_stats
      { s with current_index := i, last_switch := some now,
               switches_total := s.switches_total + 1 } i now,
    ?_, rfl, ?_, ?_⟩
  · rw [get_state_yamlMap ta _
      ((update_account_stats
        { s with current_index := i, last_switch := some now,
                 switches_total := s.switches_total + 1 } i now).to_dict)
      (by rw [log_switch_stateFile]), state_from_to]
  · simp [update_account_stats, statsCount, statsCount_bumpStats]
  · simp [update_account_stats, sumCounts_bumpStats]

/-- A successful `switch_next` persists a state with both counters bumped
(for the index it returns). -/
theorem switch_next_ok_state (ta : Int) (o : Oracle) (now : Str) (fs : FS)
    (reason : SwitchReason) (fs1 : FS) (b : Bool) (j : Int) (s : RotationState)
    (hs : get_state ta fs = .ok s)
    (h : switch_next ta o now fs reason = (fs1, .ok (b, j))) :
    ∃ s1, get_state ta fs1 = .ok s1 ∧
      s1.switches_total = s.switches_total + 1 ∧
      statsCount s1.accounts (accountKey j) =
        statsCount s.accounts (accountKey j) + 1 ∧
      sumCounts s1.accounts = sumCounts s.accounts + 1 := by
  obtain ⟨s', fsa, hg, hj, hsw, hfs1⟩ := switch_next_ok_inv _ _ _ _ _ _ _ _ h
  rw [hs] at hg
  have hss : s = s' := Except.ok.inj hg
  rw [← hss] at hsw hfs1
  subst hfs1
  refine ⟨{ update_account_stats
      { s with current_index := j, last_switch := some now,
               switches_total := s.switches_total + 1 } j now
      with total_accounts :=
        ((discover_account_ids fs.accountsDir).length : Int) },
    ?_, rfl, ?_, ?_⟩
  · rw [get_state_yamlMap ta _
      (({ update_account_stats
        { s with current_index := j, last_switch := some now,
                 switches_total := s.switches_total + 1 } j now
        with total_accounts :=
          ((discover_account_ids fs.accountsDir).length : Int) }).to_dict)
      (by rw [log_switch_stateFile]), state_from_to]
  · simp [update_account_stats, statsCount, statsCount_bumpStats]
  · simp [update_account_stats, sumCounts_bumpStats]

/-- Counter invariant along a trace of successful switches. -/
theorem runSwitches_counters (ta : Int) :
    ∀ (calls : List SwitchCall) (fs fsN : FS) (s : RotationState),
      get_state ta fs = .ok s →
      sumCounts s.accounts = s.switches_total →
      runSwitches ta calls fs = some fsN →
      ∃ sN, get_state ta fsN = .ok sN ∧
        sN.switches_total = s.switches_total + calls.length ∧
        sumCounts sN.accounts = sN.switches_total := by
  intro calls
  induction calls with
  | nil =>
      intro fs fsN s hs hsum hrun
      rw [runSwitches] at hrun
      obtain rfl := Option.some.inj hrun
      exact ⟨s, hs, by simp, hsum⟩
  | cons c rest ih =>
      intro fs fsN s hs hsum hrun
      rcases c with ⟨i, reason, o, now⟩ | ⟨reason, o, now⟩
      · rw [runSwitches] at hrun
        rcases hsw : switch_to ta o now fs i reason with ⟨fs2, res⟩
        rw [hsw] at hrun
        cases res with
        | error e => simp at hrun
        | ok v =>
            obtain ⟨s1, hs1, htot, hcnt, hsums⟩ :=
              switch_to_ok_state ta o now fs i reason fs2 v s hs hsw
            obtain ⟨sN, hsN, htotN, hsumN⟩ := ih fs2 fsN s1 hs1
              (by rw [hsums, hsum, htot]) hrun
            refine ⟨sN, hsN, ?_, hsumN⟩
            rw [htotN, htot]
            simp only [List.length_cons]
            push_cast
            ring
      · rw [runSwitches] at hrun
        rcases hsw : switch_next ta o now fs reason with ⟨fs2, res⟩
        rw [hsw] at hrun
        cases res with
        | error e => simp at hrun
        | ok v =>
            obtain ⟨b, j⟩ := v
            obtain ⟨s1, hs1, htot, hcnt, hsums⟩ :=
              switch_next_ok_state ta o now fs reason fs2 b j s hs hsw
            obtain ⟨sN, hsN, htotN, hsumN⟩ := ih fs2 fsN s1 hs1
              (by rw [hsums, hsum, htot]) hrun
            refine ⟨sN, hsN, ?_, hsumN⟩
            rw [htotN, htot]
            simp only [List.length_cons]
            push_cast
            ring

/-- C6: every successful switch (`switch_to` or `switch_next`) increments
`switches_total` by exactly 1 and the target's `switches_count` by
exactly 1 in the same persisted state (and the sum of all counters by
1); consequently, starting from a fresh default state, after N
successful switches `switches_total = N` and the counters sum to N,
whatever the targets were. -/
theorem switch_counters_increment :
    (∀ (ta : Int) (o : Oracle) (now : Str) (fs : FS) (i : Int)
      (reason : SwitchReason) (fs1 : FS) (b : Bool) (s : RotationState),
      get_state ta fs = .ok s →
      switch_to ta o now fs i reason = (fs1, .ok b) →
      ∃ s1, get_state ta fs1 = .ok s1 ∧
        s1.switches_total = s.switches_total + 1 ∧
        statsCount s1.accounts (accountKey i) =
          statsCount s.accounts (accountKey i) + 1 ∧
        sumCounts s1.accounts = sumCounts s.accounts + 1) ∧
    (∀ (ta : Int) (o : Oracle) (now : Str) (fs : FS)
      (reason : SwitchReason) (fs1 : FS) (b : Bool) (j : Int)
      (s : RotationState),
      get_state ta fs = .ok s →
      switch_next ta o now fs reason = (fs1, .ok (b, j)) →
      ∃ s1, get_state ta fs1 = .ok s1 ∧
        s1.switches_total = s.switches_total + 1 ∧
        statsCount s1.accounts (accountKey j) =
          statsCount s.accounts (accountKey j) + 1 ∧
        sumCounts s1.accounts = sumCounts s.accounts + 1) ∧
    (∀ (ta : Int) (calls : List SwitchCall) (fs0 fsN : FS),
      fs0.stateFile = .absent →
      runSwitches ta calls fs0 = some fsN →
      ∃ sN, get_state ta fsN = .ok sN ∧
        sN.switches_total = (calls.length : Int) ∧
        sumCounts sN.accounts = (calls.length : Int)) := by
  refine ⟨?_, ?_, ?_⟩
  · intro ta o now fs i reason fs1 b s hs h
    exact switch_to_ok_state ta o now fs i reason fs1 b s hs h
  · intro ta o now fs reason fs1 b j s hs h
    exact switch_next_ok_state ta o now fs reason fs1 b j s hs h
  · intro ta calls fs0 fsN habs hrun
    obtain ⟨sN, hsN, htot, hsum⟩ := runSwitches_counters ta calls fs0 fsN
      { total_accounts := ta } (get_state_absent ta fs0 habs) rfl hrun
    refine ⟨sN, hsN, ?_, ?_⟩
    · rw [htot]; push_cast; ring
    · rw [hsum, htot]; push_cast; ring

/-- C6 (witness): `switch_counters_increment` applied to three successful
`switch_to` calls from a fresh state: the persisted totals both equal 3. -/
theorem switch_counters_increment_inst :
    ∃ fsN, runSwitches 5
        [.to 1 .manual {} "T1".data, .to 2 .manual {} "T2".data,
         .to 1 .manual {} "T3".data]
        { accountsDir := some [("oauth_creds_1.json".data, "a".data),
                               ("oauth_creds_2.json".data, "b".data)] }
        = some fsN ∧
      ∃ sN, get_state 5 fsN = .ok sN ∧
        sN.switches_total = (3 : Int) ∧ sumCounts sN.accounts = (3 : Int) := by
  obtain ⟨fsN, hrun⟩ : ∃ fsN, runSwitches 5
      [.to 1 .manual {} "T1".data, .to 2 .manual {} "T2".data,
       .to 1 .manual {} "T3".data]
      { accountsDir := some [("oauth_creds_1.json".data, "a".data),
                             ("oauth_creds_2.json".data, "b".data)] }
      = some fsN := ⟨_, rfl⟩
  obtain ⟨sN, h1, h2, h3⟩ := switch_counters_increment.2.2 5
    [.to 1 .manual {} "T1".data, .to 2 .manual {} "T2".data,
     .to 1 .manual {} "T3".data]
    { accountsDir := some [("oauth_creds_1.json".data, "a".data),
                           ("oauth_creds_2.json".data, "b".data)] }
    fsN rfl hrun
  exact ⟨fsN, hrun, sN, h1, by simpa using h2, by simpa using h3⟩

/-- C9: `switch_to(i)` with `i` equal to the current active index is not
rejected: given slot `i` exists, it succeeds, copies (the possibly
synced-back) slot `i` over the active credential file, increments
`switches_total` and account `i`'s `switches_count`, sets `last_switch`
and `last_used`, and appends an audit entry with from-index and to-index
both `i`. -/
theorem switch_to_self_allowed :
    ∀ (ta : Int) (o : Oracle) (now : Str) (fs : FS) (reason : SwitchReason)
      (s : RotationState),
      o.lockOk = true → o.activateOk = true → o.dumpOk = true →
      o.replaceOk = true → o.auditOk = true →
      get_state ta fs = .ok s →
      fs.accountsDir.bind
        (fun files => lookupA files (slotName s.current_index)) ≠ none →
      ∃ fs1 s1 tc,
        switch_to ta o now fs s.current_index reason = (fs1, .ok true) ∧
        (sync_back o.syncOk fs (some s.current_index)).accountsDir.bind
          (fun files => lookupA files (slotName s.current_index)) = some tc ∧
        fs1.creds = some tc ∧
        get_state ta fs1 = .ok s1 ∧
        s1.current_index = s.current_index ∧
        s1.switches_total = s.switches_total + 1 ∧
        s1.last_switch = some now ∧
        lookupA s1.accounts (accountKey s.current_index) =
          some { switches_count :=
                   statsCount s.accounts (accountKey s.current_index) + 1,
                 last_used := some now } ∧
        fs1.auditLog =
          fs.auditLog ++ [⟨now, s.current_index, s.current_index, reason⟩] := by
  intro ta o now fs reason s hl ha hd hr haud hs hslot
  have hpost := sync_back_preserves_slot o.syncOk fs (some s.current_index) _ hslot
  obtain ⟨tc, htc⟩ := Option.ne_none_iff_exists'.mp hpost
  have heq := switch_to_success_eq ta o now fs s.current_index reason s tc
    hl ha hd hr hs htc
  refine ⟨_, update_account_stats
      { s with current_index := s.current_index, last_switch := some now,
               switches_total := s.switches_total + 1 } s.current_index now,
    tc, heq, htc, ?_, ?_, rfl, rfl, rfl, ?_, ?_⟩
  · simp [log_switch, haud]
  · rw [get_state_yamlMap ta _
      ((update_account_stats
        { s with current_index := s.current_index, last_switch := some now,
                 switches_total := s.switches_total + 1 }
        s.current_index now).to_dict)
      (by simp [log_switch, haud]), state_from_to]
  · exact statsCount_bumpStats now s.accounts (accountKey s.current_index)
  · simp [log_switch, haud,
      (sync_back_frame o.syncOk fs (some s.current_index)).2.2]

/-- C9 (witness): instantiation of `switch_to_self_allowed` at slot 1
holding `a`, state with current index 1, no active file. -/
theorem switch_to_self_allowed_inst :
    ∃ fs1 s1 tc,
      switch_to 5 {} "T0".data
        { accountsDir := some [("oauth_creds_1.json".data, "a".data)],
          stateFile := .yamlMap { current_index := some 1 } } 1 .manual
        = (fs1, .ok true) ∧
      (sync_back true
        { accountsDir := some [("oauth_creds_1.json".data, "a".data)],
          stateFile := .yamlMap { current_index := some 1 } }
        (some 1)).accountsDir.bind
        (fun files => lookupA files (slotName 1)) = some tc ∧
      fs1.creds = some tc ∧
      get_state 5 fs1 = .ok s1 ∧
      s1.current_index = 1 ∧
      s1.switches_total = 0 + 1 ∧
      s1.last_switch = some "T0".data ∧
      lookupA s1.accounts (accountKey 1) =
        some { switches_count := 0 + 1, last_used := some "T0".data } ∧
      fs1.auditLog = [] ++ [⟨"T0".data, 1, 1, .manual⟩] := by
  exact switch_to_self_allowed 5 {} "T0".data
    { accountsDir := some [("oauth_creds_1.json".data, "a".data)],
      stateFile := .yamlMap { current_index := some 1 } } .manual
    { current_index := 1 } (by decide) (by decide) (by decide) (by decide)
    (by decide) (by decide) (by decide)

/-- Every entry the `list_accounts` fold can produce comes from a
discovered index and carries `exists = True`. -/
theorem fold_entries_prop (state : RotationState) (ids0 : List Int) :
    ∀ (ids : List Int) (acc : List (Str × AccountEntry)),
      (∀ i ∈ ids, i ∈ ids0) →
      (∀ kv ∈ acc, kv.2.exists_flag = true ∧
        ∃ i, i ∈ ids0 ∧ kv.1 = accountKey i ∧ kv.2.index = i) →
      ∀ kv ∈ ids.foldl
          (fun result i =>
            let stats := (lookupA state.accounts (accountKey i)).getD {}
            setA result (accountKey i)
              { index := i, active := i == state.current_index,
                exists_flag := true,
                switches_count := stats.switches_count,
                last_used := stats.last_used }) acc,
        kv.2.exists_flag = true ∧
        ∃ i, i ∈ ids0 ∧ kv.1 = accountKey i ∧ kv.2.index = i := by
  intro ids
  induction ids with
  | nil => intro acc hsub hacc kv hkv; exact hacc kv hkv
  | cons j tl ih =>
      intro acc hsub hacc kv hkv
      rw [List.foldl_cons] at hkv
      refine ih _ (fun i hi => hsub i (List.mem_cons_of_mem _ hi)) ?_ kv hkv
      intro kv2 hkv2
      rcases mem_setA _ _ _ _ hkv2 with hmem | heq2
      · exact hacc kv2 hmem
      · refine ⟨by rw [heq2], j, hsub j (List.mem_cons_self _ _),
          by rw [heq2], by rw [heq2]⟩

/-- C10: every entry of the mapping `list_accounts` returns has
`exists = True`, and its key and index come from a currently discovered
account; accounts recorded in Rotation State whose slot file is gone are
not reported. -/
theorem list_accounts_only_discovered :
    ∀ (ta : Int) (fs : FS) (r : List (Str × AccountEntry)),
      list_accounts ta fs = .ok r →
      ∀ kv ∈ r, kv.2.exists_flag = true ∧
        ∃ i, i ∈ discover_account_ids fs.accountsDir ∧
          kv.1 = accountKey i ∧ kv.2.index = i := by
  intro ta fs r hr
  rcases hg : get_state ta fs with e | state
  · rw [list_accounts, hg] at hr
    exact absurd hr (by simp)
  · rw [list_accounts, hg] at hr
    simp only [Except.ok.injEq] at hr
    subst hr
    intro kv hkv
    exact fold_entries_prop state (discover_account_ids fs.accountsDir)
      (discover_account_ids fs.accountsDir) [] (fun i hi => hi)
      (by simp) kv hkv

/-- C10 (witness): instantiation of `list_accounts_only_discovered` where
slot 3 is discovered while the state records stats for `account9`, whose
slot file is gone: the result holds exactly the discovered account with
`exists = True`, and `account9` is omitted. -/
theorem list_accounts_only_discovered_inst :
    list_accounts 5
      { accountsDir := some [("oauth_creds_3.json".data, "c".data)],
        stateFile := .yamlMap
          { current_index := some 3,
            accounts := some
              [("account9".data, some { switches_count := some 4 })] } }
      = .ok [("account3".data,
          { index := 3, active := true, exists_flag := true,
            switches_count := 0, last_used := none })] ∧
    lookupA [("account3".data,
        ({ index := 3, active := true, exists_flag := true,
           switches_count := 0, last_used := none } : AccountEntry))]
      "account9".data = none ∧
    (("account3".data,
      ({ index := 3, active := true, exists_flag := true,
         switches_count := 0, last_used := none } : AccountEntry)).2.exists_flag
        = true ∧
      ∃ i, i ∈ discover_account_ids
          (some [("oauth_creds_3.json".data, "c".data)]) ∧
        ("account3".data,
          ({ index := 3, active := true, exists_flag := true,
             switches_count := 0, last_used := none } : AccountEntry)).1
          = accountKey i ∧
        ({ index := 3, active := true, exists_flag := true,
           switches_count := 0, last_used := none } : AccountEntry).index = i) := by
  refine ⟨by decide, by decide, ?_⟩
  exact list_accounts_only_discovered 5
    { accountsDir := some [("oauth_creds_3.json".data, "c".data)],
      stateFile := .yamlMap
        { current_index := some 3,
          accounts := some
            [("account9".data, some { switches_count := some 4 })] } }
    [("account3".data,
      { index := 3, active := true, exists_flag := true,
        switches_count := 0, last_used := none })]
    (by decide) _ (by decide)

end QwenRotation
